import Mathlib

/-!
Shallow embedding of the Order Ledger Access Layer from
services/googleSheets.service.js.

The remote spreadsheet is modelled as a list of rows; the first list element
is the header row (sheet row 1) and the data region starts at the second
element (sheet row 2).  Each sheet cell holds text, so a row is a structure
of ten strings in schema order.  JavaScript string primitives used by the
source (replace(/\D/g, ""), includes, the > comparison on strings, and the
truthiness tests on possibly-empty strings) are embedded as executable
functions on Lean strings.
-/

namespace GlamSheets

/-- Lexicographic comparison of character lists by code point, the order
JavaScript applies when comparing strings with < and >. -/
def charsLt : List Char → List Char → Bool
  | _, [] => false
  | [], _ :: _ => true
  | a :: as, b :: bs => if a < b then true else if b < a then false else charsLt as bs

/-- JavaScript string comparison a < b (the source uses createdAt > latestDate,
i.e. latestDate < createdAt). -/
def strLt (a b : String) : Bool := charsLt a.data b.data

/-- Whether the second list is an initial segment of the first. -/
def startsWithChars : List Char → List Char → Bool
  | _, [] => true
  | [], _ :: _ => false
  | a :: as, b :: bs => a = b && startsWithChars as bs

/-- Whether the second list occurs contiguously inside the first. -/
def containsChars : List Char → List Char → Bool
  | [], sub => startsWithChars [] sub
  | a :: t, sub => startsWithChars (a :: t) sub || containsChars t sub

/-- JavaScript s.includes(sub): substring containment. -/
def strIncludes (s sub : String) : Bool := containsChars s.data sub.data

/-- JavaScript phone.replace(/\D/g, ""): keep only the decimal digits. -/
def normalizePhone (s : String) : String := String.mk (s.data.filter fun c => c.isDigit)

/-- JavaScript a || b on strings, where undefined is encoded as none and the
empty string is falsy. -/
def jsOr (a : Option String) (b : String) : String :=
  match a with
  | none => b
  | some s => if s = "" then b else s

/-- One sheet row: the ten cells of the Orders schema, in column order A..J.
Short rows returned by the store are read back with missing trailing cells as
empty strings, so every cell is total here. -/
structure Row where
  order_id : String
  order_number : String
  customer_name : String
  phone : String
  total_amount : String
  items_summary : String
  status : String
  last_customer_message : String
  confirmed_at : String
  created_at : String
deriving DecidableEq

/-- The header row written by ensureHeaders: each cell holds its field name. -/
def headerRow : Row :=
  ⟨"order_id", "order_number", "customer_name", "phone", "total_amount",
   "items_summary", "status", "last_customer_message", "confirmed_at", "created_at"⟩

/-- Loop body of findRowByOrderId: scan the identifier column from index i,
returning the 1-based sheet row of the first exact match, else -1.  The scan
starts at the first fetched row, which is the header row, because the source
reads the range A:A of the whole column. -/
def findRowAux (orderId : String) : List Row → Nat → Int
  | [], _ => -1
  | r :: rest, i => if r.order_id = orderId then (i : Int) + 1 else findRowAux orderId rest (i + 1)

/-- findRowByOrderId(orderId): linear scan of column A over all rows (header
included), first exact string match wins, 1-based row number, -1 if absent. -/
def findRowByOrderId (store : List Row) (orderId : String) : Int :=
  findRowAux orderId store 0

/-- The in-memory row mutation performed by updateOrderStatus between its read
and its write: row[6] = status; if status is CONFIRMED and row[8] is falsy set
row[8] to the current time; if additionalData.confirmedAt is truthy (present
and non-empty) overwrite row[8] with it. -/
def applyStatusUpdate (row : Row) (status : String) (confirmedAtOverride : Option String)
    (now : String) : Row :=
  let row1 : Row := { row with status := status }
  let row2 : Row :=
    if status = "CONFIRMED" ∧ row1.confirmed_at = "" then { row1 with confirmed_at := now }
    else row1
  match confirmedAtOverride with
  | none => row2
  | some v => if v = "" then row2 else { row2 with confirmed_at := v }

/-- updateOrderStatus(orderId, status, additionalData) on an initialized
service with no store faults: locate the row, read it, mutate it with
applyStatusUpdate, write it back in place; (false, unchanged store) when the
id is not found.  The unreachable read-miss branch mirrors the catch that
turns a failed row read into a false return. -/
def updateOrderStatus (store : List Row) (orderId status : String)
    (confirmedAtOverride : Option String) (now : String) : Bool × List Row :=
  let rowIndex := findRowByOrderId store orderId
  if rowIndex = -1 then (false, store)
  else
    match store[(rowIndex - 1).toNat]? with
    | none => (false, store)
    | some row =>
        (true, store.set (rowIndex - 1).toNat (applyStatusUpdate row status confirmedAtOverride now))

/-- updateLastMessage(orderId, message) on an initialized service with no
store faults: locate the row, then overwrite the single cell H(row) holding
last_customer_message; the store state after that one-cell write is the old
store with exactly that field of that row replaced. -/
def updateLastMessage (store : List Row) (orderId message : String) : Bool × List Row :=
  let rowIndex := findRowByOrderId store orderId
  if rowIndex = -1 then (false, store)
  else
    match store[(rowIndex - 1).toNat]? with
    | none => (false, store)
    | some row => (true, store.set (rowIndex - 1).toNat { row with last_customer_message := message })

/-- Phone match test of getPendingOrderByPhone: normalize the stored phone and
accept when either normalized string contains the other. -/
def phoneMatches (cleanPhone : String) (row : Row) : Bool :=
  let rowPhone := normalizePhone row.phone
  strIncludes rowPhone cleanPhone || strIncludes cleanPhone rowPhone

/-- One iteration of the reverse scan in getPendingOrderByPhone.  The
accumulator carries latestOrder; latestDate always equals the created_at of
the accumulated row, and the JavaScript guard (!latestDate || createdAt >
latestDate) is falsy-aware: it also fires when the tracked created_at is the
empty string. -/
def pendingStep (cleanPhone : String) (acc : Option Row) (row : Row) : Option Row :=
  if phoneMatches cleanPhone row = true then
    if row.status = "PENDING_CONFIRMATION" then
      match acc with
      | none => some row
      | some prev =>
          if prev.created_at = "" ∨ strLt prev.created_at row.created_at = true then some row
          else some prev
    else acc
  else acc

/-- getPendingOrderByPhone(phone) on the data region (the source reads the
range A2:J, skipping the header): scan rows from last to first, tracking the
best pending match.  The returned object copies the ten cells of the winning
row unchanged (row[7] || "" and row[8] || "" are identities on strings), so
the result is modelled as the row itself. -/
def getPendingOrderByPhone (dataRows : List Row) (phone : String) : Option Row :=
  dataRows.reverse.foldl (pendingStep (normalizePhone phone)) none

/-- A data row that qualifies for the pending lookup: its phone matches the
normalized input and its status is PENDING_CONFIRMATION. -/
def qualifies (cleanPhone : String) (row : Row) : Prop :=
  phoneMatches cleanPhone row = true ∧ row.status = "PENDING_CONFIRMATION"

instance (c : String) (r : Row) : Decidable (qualifies c r) :=
  inferInstanceAs (Decidable (_ ∧ _))

/-- A sheet cell as written by addOrder with valueInputOption RAW: the row it
appends carries strings in nine cells, but the total_amount cell is the
JavaScript expression order.totalPrice?.amount || 0, which degrades to the
number 0 when the amount is missing or empty. -/
inductive Cell where
  | str (v : String)
  | num (v : Nat)
deriving DecidableEq

/-- One entry of an item options collection in the upstream order object. -/
structure ItemOption where
  name : String
  value : String
deriving DecidableEq

/-- One line item of the upstream order object; options may be absent. -/
structure OrderItem where
  title : String
  quantity : Nat
  options : Option (List ItemOption)
deriving DecidableEq

/-- The parts of the upstream commerce order object that addOrder reads.
Optional chains such as order.customer?.name are flattened to a single
Option String, since a missing object and a missing field both yield
undefined at the point of use. -/
structure UpstreamOrder where
  idStr : String
  orderSerial : String
  customerName : Option String
  shippingPhone : Option String
  customerPhone : Option String
  totalAmount : Option String
  items : Option (List OrderItem)
deriving DecidableEq

/-- Per-item text built by addOrder: title, then " (size)" when the options
list has an entry named Size (the first such entry wins, via find), then
" x" and the quantity. -/
def itemSummary (item : OrderItem) : String :=
  let sizeOption :=
    match item.options with
    | some opts => opts.find? fun o : ItemOption => o.name = "Size"
    | none => none
  let size :=
    match sizeOption with
    | some o => " (" ++ o.value ++ ")"
    | none => ""
  item.title ++ size ++ " x" ++ toString item.quantity

/-- items_summary cell: map itemSummary over the items and join with ", ";
a missing items collection degrades to the empty string via || "". -/
def itemsSummary (items : Option (List OrderItem)) : String :=
  match items with
  | none => ""
  | some l => String.intercalate ", " (l.map itemSummary)

/-- total_amount cell: order.totalPrice?.amount || 0, so a present non-empty
amount string is kept and a missing or empty one becomes the number 0. -/
def totalAmountCell (amount : Option String) : Cell :=
  match amount with
  | none => Cell.num 0
  | some a => if a = "" then Cell.num 0 else Cell.str a

/-- The ten-cell row appended by addOrder, in schema order. -/
def addOrderRow (order : UpstreamOrder) (now : String) : List Cell :=
  [ Cell.str order.idStr,
    Cell.str order.orderSerial,
    Cell.str (jsOr order.customerName ""),
    Cell.str (jsOr order.shippingPhone (jsOr order.customerPhone "")),
    totalAmountCell order.totalAmount,
    Cell.str (itemsSummary order.items),
    Cell.str "PENDING_CONFIRMATION",
    Cell.str "",
    Cell.str "",
    Cell.str now ]

/-- Failure environment of one public call: whether initialize succeeded, and
which of the store calls made during the operation raise.  Every raise is
caught at the operation boundary by the try/catch in the source. -/
structure Env where
  inited : Bool
  readFails : Bool
  writeFails : Bool
  appendFails : Bool
deriving DecidableEq

/-- findRowByOrderId under faults: its own try/catch converts a failed column
read into the -1 sentinel. -/
def findRowOp (env : Env) (store : List Row) (orderId : String) : Int :=
  if env.readFails then -1 else findRowByOrderId store orderId

/-- addOrder under faults: false and no appended row when the service is not
initialized or the append call raises; otherwise true plus the appended row. -/
def addOrderOp (env : Env) (order : UpstreamOrder) (now : String) : Bool × Option (List Cell) :=
  if env.inited = false then (false, none)
  else if env.appendFails then (false, none)
  else (true, some (addOrderRow order now))

/-- updateOrderStatus under faults, following the control flow of the method:
initialization guard, locate (a failed column read already yields -1 there),
row read, row write; every caught raise returns false with the store
untouched. -/
def updateOrderStatusOp (env : Env) (store : List Row) (orderId status : String)
    (confirmedAtOverride : Option String) (now : String) : Bool × List Row :=
  if env.inited = false then (false, store)
  else
    let rowIndex := findRowOp env store orderId
    if rowIndex = -1 then (false, store)
    else if env.readFails then (false, store)
    else if env.writeFails then (false, store)
    else updateOrderStatus store orderId status confirmedAtOverride now

/-- updateLastMessage under faults: initialization guard, locate, single-cell
write; a caught raise returns false with the store untouched. -/
def updateLastMessageOp (env : Env) (store : List Row) (orderId message : String) :
    Bool × List Row :=
  if env.inited = false then (false, store)
  else
    let rowIndex := findRowOp env store orderId
    if rowIndex = -1 then (false, store)
    else if env.writeFails then (false, store)
    else updateLastMessage store orderId message

/-- getPendingOrderByPhone under faults: null when the service is not
initialized or the range read raises; otherwise the pure scan over the data
region (the store minus its header row). -/
def getPendingOrderByPhoneOp (env : Env) (store : List Row) (phone : String) : Option Row :=
  if env.inited = false then none
  else if env.readFails then none
  else getPendingOrderByPhone (store.drop 1) phone

theorem charsLt_nil_right (l : List Char) : charsLt l [] = false := by
  cases l <;> rfl

theorem charsLt_nil_left_eq_false {l : List Char} (h : charsLt [] l = false) : l = [] := by
  cases l with
  | nil => rfl
  | cons a t => simp [charsLt] at h

theorem charsLt_irrefl (l : List Char) : charsLt l l = false := by
  induction l with
  | nil => rfl
  | cons a t ih => simp [charsLt, lt_self_iff_false, ih]

theorem charsLt_trans (a : List Char) :
    ∀ b c, charsLt a b = true → charsLt b c = true → charsLt a c = true := by
  induction a with
  | nil =>
    intro b c h1 h2
    cases c with
    | nil => rw [charsLt_nil_right] at h2; cases h2
    | cons x xs => rfl
  | cons a0 as ih =>
    intro b c h1 h2
    cases b with
    | nil => rw [charsLt_nil_right] at h1; cases h1
    | cons b0 bs =>
      cases c with
      | nil => rw [charsLt_nil_right] at h2; cases h2
      | cons c0 cs =>
        simp only [charsLt] at h1 h2 ⊢
        by_cases hab : a0 < b0
        · by_cases hbc : b0 < c0
          · simp [lt_trans hab hbc]
          · by_cases hcb : c0 < b0
            · simp [hbc, hcb] at h2
            · have hbceq : b0 = c0 := le_antisymm (le_of_not_lt hcb) (le_of_not_lt hbc)
              subst hbceq
              simp [hab]
        · by_cases hba : b0 < a0
          · simp [hab, hba] at h1
          · have habeq : a0 = b0 := le_antisymm (le_of_not_lt hba) (le_of_not_lt hab)
            subst habeq
            simp only [lt_self_iff_false, if_false] at h1
            by_cases hac : a0 < c0
            · simp [hac]
            · by_cases hca : c0 < a0
              · simp [hac, hca] at h2
              · rw [if_neg hac, if_neg hca] at h2 ⊢
                exact ih bs cs h1 h2

theorem charsLt_conn (a : List Char) :
    ∀ b, charsLt a b = false → charsLt b a = false → a = b := by
  induction a with
  | nil =>
    intro b h1 _
    exact (charsLt_nil_left_eq_false h1).symm
  | cons a0 as ih =>
    intro b h1 h2
    cases b with
    | nil => cases charsLt_nil_left_eq_false h2
    | cons b0 bs =>
      simp only [charsLt] at h1 h2
      by_cases hab : a0 < b0
      · simp [hab] at h1
      · by_cases hba : b0 < a0
        · simp [hab, hba] at h2
        · have habeq : a0 = b0 := le_antisymm (le_of_not_lt hba) (le_of_not_lt hab)
          subst habeq
          simp only [lt_self_iff_false, if_false] at h1 h2
          rw [ih bs h1 h2]

theorem charsLt_asymm {a b : List Char} (h : charsLt a b = true) : charsLt b a = false := by
  cases hba : charsLt b a with
  | false => rfl
  | true =>
    have := charsLt_trans a b a h hba
    rw [charsLt_irrefl] at this
    cases this

theorem strLt_irrefl (s : String) : strLt s s = false := charsLt_irrefl s.data

theorem strLt_empty_right (s : String) : strLt s "" = false := charsLt_nil_right s.data

theorem strLt_empty_left {s : String} (h : strLt "" s = false) : s = "" := by
  have hd : s.data = [] := charsLt_nil_left_eq_false h
  cases s
  simp_all

theorem strLt_trans {a b c : String} (h1 : strLt a b = true) (h2 : strLt b c = true) :
    strLt a c = true := charsLt_trans a.data b.data c.data h1 h2

theorem strLt_asymm {a b : String} (h : strLt a b = true) : strLt b a = false :=
  charsLt_asymm h

theorem strLt_conn {a b : String} (h1 : strLt a b = false) (h2 : strLt b a = false) : a = b := by
  have hd : a.data = b.data := charsLt_conn a.data b.data h1 h2
  cases a
  cases b
  simp_all

theorem containsChars_nil_sub (l : List Char) : containsChars l [] = true := by
  cases l <;> simp [containsChars, startsWithChars]

theorem strIncludes_empty (s : String) : strIncludes s "" = true :=
  containsChars_nil_sub s.data

theorem phoneMatches_of_clean_empty (r : Row) : phoneMatches "" r = true := by
  simp [phoneMatches, strIncludes_empty]

theorem phoneMatches_of_row_empty (c : String) (r : Row) (h : normalizePhone r.phone = "") :
    phoneMatches c r = true := by
  simp [phoneMatches, h, strIncludes_empty]

theorem findRowAux_eq_neg_one_iff (oid : String) (l : List Row) :
    ∀ i : Nat, (findRowAux oid l i = -1 ↔ ∀ r ∈ l, r.order_id ≠ oid) := by
  induction l with
  | nil => intro i; simp [findRowAux]
  | cons r rest ih =>
    intro i
    simp only [findRowAux]
    by_cases h : r.order_id = oid
    · simp only [if_pos h]
      constructor
      · intro hEq; omega
      · intro hAll; exact absurd h (hAll r (by simp))
    · simp only [if_neg h]
      rw [ih (i + 1)]
      simp [List.forall_mem_cons, h]

theorem findRowAux_append (oid : String) (pre : List Row) (r : Row) (post : List Row) :
    ∀ i : Nat, (∀ w ∈ pre, w.order_id ≠ oid) → r.order_id = oid →
    findRowAux oid (pre ++ r :: post) i = ((i + pre.length : Nat) : Int) + 1 := by
  induction pre with
  | nil => intro i _ hr; simp [findRowAux, hr]
  | cons p ps ih =>
    intro i hpre hr
    have hp : p.order_id ≠ oid := hpre p (by simp)
    simp only [List.cons_append, findRowAux, if_neg hp]
    show findRowAux oid (ps ++ r :: post) (i + 1) = ((i + (p :: ps).length : Nat) : Int) + 1
    rw [ih (i + 1) (fun w hw => hpre w (by simp [hw])) hr]
    simp only [List.length_cons]
    omega

theorem findRowByOrderId_neg_one_iff (store : List Row) (oid : String) :
    findRowByOrderId store oid = -1 ↔ ∀ r ∈ store, r.order_id ≠ oid :=
  findRowAux_eq_neg_one_iff oid store 0

theorem findRowByOrderId_append (oid : String) (pre : List Row) (r : Row) (post : List Row)
    (hpre : ∀ w ∈ pre, w.order_id ≠ oid) (hr : r.order_id = oid) :
    findRowByOrderId (pre ++ r :: post) oid = (pre.length : Int) + 1 := by
  unfold findRowByOrderId
  rw [findRowAux_append oid pre r post 0 hpre hr]
  simp

theorem getElem?_append_mid (pre : List Row) (r : Row) (post : List Row) :
    (pre ++ r :: post)[pre.length]? = some r := by
  induction pre with
  | nil => simp
  | cons p ps ih => simpa using ih

theorem set_append_mid (pre : List Row) (r r2 : Row) (post : List Row) :
    (pre ++ r :: post).set pre.length r2 = pre ++ r2 :: post := by
  induction pre with
  | nil => rfl
  | cons p ps ih => simp [List.set, ih]

theorem updateOrderStatus_found (pre : List Row) (r : Row) (post : List Row)
    (oid status : String) (ov : Option String) (now : String)
    (hpre : ∀ w ∈ pre, w.order_id ≠ oid) (hr : r.order_id = oid) :
    updateOrderStatus (pre ++ r :: post) oid status ov now =
      (true, pre ++ applyStatusUpdate r status ov now :: post) := by
  unfold updateOrderStatus
  rw [findRowByOrderId_append oid pre r post hpre hr]
  rw [if_neg (by omega)]
  have h2 : ((pre.length : Int) + 1 - 1).toNat = pre.length := by omega
  rw [h2, getElem?_append_mid]
  dsimp only
  rw [set_append_mid]

theorem updateLastMessage_found (pre : List Row) (r : Row) (post : List Row)
    (oid message : String)
    (hpre : ∀ w ∈ pre, w.order_id ≠ oid) (hr : r.order_id = oid) :
    updateLastMessage (pre ++ r :: post) oid message =
      (true, pre ++ { r with last_customer_message := message } :: post) := by
  unfold updateLastMessage
  rw [findRowByOrderId_append oid pre r post hpre hr]
  rw [if_neg (by omega)]
  have h2 : ((pre.length : Int) + 1 - 1).toNat = pre.length := by omega
  rw [h2, getElem?_append_mid]
  dsimp only
  rw [set_append_mid]

/-- Loop invariant of the reverse scan in getPendingOrderByPhone, stated over
the rows already processed: an empty accumulator means no processed row
qualifies, and a filled accumulator is a processed qualifying row whose
created_at is not below that of any processed qualifying row. -/
def PendInv (c : String) (processed : List Row) (acc : Option Row) : Prop :=
  match acc with
  | none => ∀ w ∈ processed, ¬ qualifies c w
  | some r =>
      r ∈ processed ∧ qualifies c r ∧
      ∀ w ∈ processed, qualifies c w → strLt r.created_at w.created_at = false

theorem pendingStep_inv (c : String) (processed : List Row) (acc : Option Row) (row : Row)
    (h : PendInv c processed acc) : PendInv c (processed ++ [row]) (pendingStep c acc row) := by
  by_cases hq : qualifies c row
  · obtain ⟨hm, hs⟩ := hq
    unfold pendingStep
    rw [if_pos hm, if_pos hs]
    cases acc with
    | none =>
      simp only [PendInv] at h ⊢
      refine ⟨by simp, ⟨hm, hs⟩, ?_⟩
      intro w hw hqw
      rcases List.mem_append.mp hw with hwp | hwr
      · exact absurd hqw (h w hwp)
      · have hwe : w = row := by simpa using hwr
        subst hwe
        exact strLt_irrefl _
    | some prev =>
      simp only [PendInv] at h ⊢
      obtain ⟨hmem, hqp, hmax⟩ := h
      by_cases hg : prev.created_at = "" ∨ strLt prev.created_at row.created_at = true
      · rw [if_pos hg]
        refine ⟨by simp, ⟨hm, hs⟩, ?_⟩
        intro w hw hqw
        rcases List.mem_append.mp hw with hwp | hwr
        · have hpw : strLt prev.created_at w.created_at = false := hmax w hwp hqw
          rcases hg with hempty | hlt
          · rw [hempty] at hpw
            have hw0 : w.created_at = "" := strLt_empty_left hpw
            rw [hw0]
            exact strLt_empty_right _
          · cases hc : strLt row.created_at w.created_at with
            | false => rfl
            | true => rw [strLt_trans hlt hc] at hpw; cases hpw
        · have hwe : w = row := by simpa using hwr
          subst hwe
          exact strLt_irrefl _
      · rw [if_neg hg]
        push_neg at hg
        obtain ⟨hne, hnlt⟩ := hg
        refine ⟨List.mem_append.mpr (Or.inl hmem), hqp, ?_⟩
        intro w hw hqw
        rcases List.mem_append.mp hw with hwp | hwr
        · exact hmax w hwp hqw
        · have hwe : w = row := by simpa using hwr
          subst hwe
          cases hx : strLt prev.created_at w.created_at with
          | false => rfl
          | true => exact absurd hx hnlt
  · have hstep : pendingStep c acc row = acc := by
      unfold pendingStep
      by_cases hm : phoneMatches c row = true
      · rw [if_pos hm]
        by_cases hs : row.status = "PENDING_CONFIRMATION"
        · exact absurd ⟨hm, hs⟩ hq
        · rw [if_neg hs]
      · rw [if_neg hm]
    rw [hstep]
    cases acc with
    | none =>
      simp only [PendInv] at h ⊢
      intro w hw
      rcases List.mem_append.mp hw with hwp | hwr
      · exact h w hwp
      · have hwe : w = row := by simpa using hwr
        subst hwe
        exact hq
    | some r =>
      simp only [PendInv] at h ⊢
      obtain ⟨hmem, hqr, hmax⟩ := h
      refine ⟨List.mem_append.mpr (Or.inl hmem), hqr, ?_⟩
      intro w hw hqw
      rcases List.mem_append.mp hw with hwp | hwr
      · exact hmax w hwp hqw
      · have hwe : w = row := by simpa using hwr
        subst hwe
        exact absurd hqw hq

theorem pendingFold_inv (c : String) :
    ∀ (l processed : List Row) (acc : Option Row),
    PendInv c processed acc → PendInv c (processed ++ l) (l.foldl (pendingStep c) acc) := by
  intro l
  induction l with
  | nil =>
    intro processed acc h
    simpa using h
  | cons a t ih =>
    intro processed acc h
    have h2 := pendingStep_inv c processed acc a h
    have h3 := ih (processed ++ [a]) (pendingStep c acc a) h2
    simpa [List.append_assoc] using h3

theorem getPending_inv (l : List Row) (phone : String) :
    PendInv (normalizePhone phone) l.reverse (getPendingOrderByPhone l phone) := by
  have h := pendingFold_inv (normalizePhone phone) l.reverse [] none (by simp [PendInv])
  rw [List.nil_append] at h
  exact h

theorem getPending_none_iff (l : List Row) (phone : String) :
    getPendingOrderByPhone l phone = none ↔ ∀ w ∈ l, ¬ qualifies (normalizePhone phone) w := by
  have h := getPending_inv l phone
  constructor
  · intro hres w hw
    rw [hres] at h
    simp only [PendInv] at h
    exact h w (List.mem_reverse.mpr hw)
  · intro hall
    cases hres : getPendingOrderByPhone l phone with
    | none => rfl
    | some r =>
      rw [hres] at h
      simp only [PendInv] at h
      exact absurd h.2.1 (hall r (List.mem_reverse.mp h.1))

theorem getPending_some_max (l : List Row) (phone : String) (r : Row)
    (hres : getPendingOrderByPhone l phone = some r) :
    r ∈ l ∧ qualifies (normalizePhone phone) r ∧
      ∀ w ∈ l, qualifies (normalizePhone phone) w → strLt r.created_at w.created_at = false := by
  have h := getPending_inv l phone
  rw [hres] at h
  simp only [PendInv] at h
  exact ⟨List.mem_reverse.mp h.1, h.2.1, fun w hw hq => h.2.2 w (List.mem_reverse.mpr hw) hq⟩

theorem applyStatusUpdate_confirmed_none (r : Row) (now : String) :
    applyStatusUpdate r "CONFIRMED" none now =
      { r with
          status := "CONFIRMED",
          confirmed_at := if r.confirmed_at = "" then now else r.confirmed_at } := by
  by_cases h : r.confirmed_at = "" <;> simp [applyStatusUpdate, h]

theorem applyStatusUpdate_other_none (r : Row) (status now : String) (h : status ≠ "CONFIRMED") :
    applyStatusUpdate r status none now = { r with status := status } := by
  simp [applyStatusUpdate, h]

theorem applyStatusUpdate_some_override (r : Row) (status v now : String) (hv : v ≠ "") :
    applyStatusUpdate r status (some v) now = { r with status := status, confirmed_at := v } := by
  simp only [applyStatusUpdate]
  split_ifs <;> simp_all

theorem applyStatusUpdate_empty_override (r : Row) (status now : String) :
    applyStatusUpdate r status (some "") now = applyStatusUpdate r status none now := by
  simp [applyStatusUpdate]

/-- Claim C1: getPendingOrderByPhone strips every non-digit character from the
input and from each stored phone, treats a row as a match when either
normalized string contains the other as a substring, and among matching rows
with status PENDING_CONFIRMATION returns a record with the greatest created_at
value (for two matching pending rows with created_at T1 < T2 it returns the T2
row), or none when no row qualifies. -/
theorem getPendingOrderByPhone_correct (rows : List Row) (phone : String) :
    ((normalizePhone phone).data = phone.data.filter (fun ch => ch.isDigit)) ∧
    (∀ w : Row, phoneMatches (normalizePhone phone) w =
      (strIncludes (normalizePhone w.phone) (normalizePhone phone) ||
       strIncludes (normalizePhone phone) (normalizePhone w.phone))) ∧
    (getPendingOrderByPhone rows phone = none ↔
      ∀ w ∈ rows, ¬ (phoneMatches (normalizePhone phone) w = true ∧
        w.status = "PENDING_CONFIRMATION")) ∧
    (∀ r, getPendingOrderByPhone rows phone = some r →
      r ∈ rows ∧ phoneMatches (normalizePhone phone) r = true ∧
      r.status = "PENDING_CONFIRMATION" ∧
      ∀ w ∈ rows, phoneMatches (normalizePhone phone) w = true →
        w.status = "PENDING_CONFIRMATION" → strLt r.created_at w.created_at = false) ∧
    (∀ r1 r2, r1 ∈ rows → r2 ∈ rows →
      qualifies (normalizePhone phone) r1 → qualifies (normalizePhone phone) r2 →
      strLt r1.created_at r2.created_at = true →
      (∀ w ∈ rows, qualifies (normalizePhone phone) w → w = r1 ∨ w = r2) →
      getPendingOrderByPhone rows phone = some r2) := by
  refine ⟨rfl, fun w => rfl, getPending_none_iff rows phone, ?_, ?_⟩
  · intro r hres
    obtain ⟨hmem, hq, hmax⟩ := getPending_some_max rows phone r hres
    exact ⟨hmem, hq.1, hq.2, fun w hw hm hs => hmax w hw ⟨hm, hs⟩⟩
  · intro r1 r2 h1 h2 hq1 hq2 hlt hall
    cases hres : getPendingOrderByPhone rows phone with
    | none => exact absurd hq2 ((getPending_none_iff rows phone).mp hres r2 h2)
    | some r =>
      obtain ⟨hmem, hq, hmax⟩ := getPending_some_max rows phone r hres
      rcases hall r hmem hq with he1 | he2
      · subst he1
        have hfalse := hmax r2 h2 hq2
        rw [hlt] at hfalse
        cases hfalse
      · rw [he2]

/-- Data row used to instantiate the pending-lookup claims: a pending order
created first. -/
def wRowA : Row :=
  ⟨"o1", "1001", "Ann", "+1 (555) 123-4567", "10", "Shirt x1", "PENDING_CONFIRMATION",
   "", "", "2024-01-01T00:00:00Z"⟩

/-- Data row used to instantiate the pending-lookup claims: a pending order
created second, with a differently formatted matching phone. -/
def wRowB : Row :=
  ⟨"o2", "1002", "Ann", "5551234567", "20", "Hat x2", "PENDING_CONFIRMATION",
   "", "", "2024-01-02T00:00:00Z"⟩

/-- Witness for claim C1: with two matching pending rows created at T1 < T2,
the lookup returns the T2 row. -/
theorem getPendingOrderByPhone_correct_witness :
    getPendingOrderByPhone [wRowA, wRowB] "15551234567" = some wRowB := by
  exact (getPendingOrderByPhone_correct [wRowA, wRowB] "15551234567").2.2.2.2
    wRowA wRowB (by decide) (by decide) (by decide) (by decide) (by decide) (by decide)

/-- Claim C2: a transition to CONFIRMED with no override stamps confirmed_at
with the current time exactly when it is empty; repeating the identical call
changes nothing further; a transition to PENDING_CONFIRMATION leaves
confirmed_at as it was, so an empty confirmed_at stays empty. -/
theorem updateOrderStatus_confirmedAt_once (pre post : List Row) (r : Row)
    (oid now1 now2 now3 : String)
    (hpre : ∀ w ∈ pre, w.order_id ≠ oid) (hr : r.order_id = oid) (hnow : now1 ≠ "") :
    updateOrderStatus (pre ++ r :: post) oid "CONFIRMED" none now1 =
      (true, pre ++ { r with
          status := "CONFIRMED",
          confirmed_at := if r.confirmed_at = "" then now1 else r.confirmed_at } :: post) ∧
    updateOrderStatus (pre ++ { r with
          status := "CONFIRMED",
          confirmed_at := if r.confirmed_at = "" then now1 else r.confirmed_at } :: post)
      oid "CONFIRMED" none now2 =
      (true, pre ++ { r with
          status := "CONFIRMED",
          confirmed_at := if r.confirmed_at = "" then now1 else r.confirmed_at } :: post) ∧
    updateOrderStatus (pre ++ r :: post) oid "PENDING_CONFIRMATION" none now3 =
      (true, pre ++ { r with status := "PENDING_CONFIRMATION" } :: post) := by
  refine ⟨?_, ?_, ?_⟩
  · rw [updateOrderStatus_found pre r post oid "CONFIRMED" none now1 hpre hr,
      applyStatusUpdate_confirmed_none]
  · have hfound := updateOrderStatus_found pre
      ({ r with
          status := "CONFIRMED",
          confirmed_at := if r.confirmed_at = "" then now1 else r.confirmed_at }) post
      oid "CONFIRMED" none now2 hpre hr
    rw [hfound, applyStatusUpdate_confirmed_none]
    by_cases h : r.confirmed_at = "" <;> simp_all [hnow]
  · rw [updateOrderStatus_found pre r post oid "PENDING_CONFIRMATION" none now3 hpre hr,
      applyStatusUpdate_other_none r "PENDING_CONFIRMATION" now3 (by decide)]

/-- Witness for claim C2: a fresh pending row is stamped on the first
CONFIRMED transition and untouched by the second. -/
theorem updateOrderStatus_confirmedAt_once_witness :
    updateOrderStatus [wRowA] "o1" "CONFIRMED" none "2024-02-01T00:00:00Z" =
      (true, [{ wRowA with
          status := "CONFIRMED",
          confirmed_at := "2024-02-01T00:00:00Z" }]) := by
  have h := (updateOrderStatus_confirmedAt_once [] [] wRowA "o1"
    "2024-02-01T00:00:00Z" "2024-03-01T00:00:00Z" "2024-03-01T00:00:00Z"
    (by decide) (by decide) (by decide)).1
  simpa using h

/-- Stored row with an already-set confirmed_at, used for the override
claims. -/
def cexRow3 : Row :=
  ⟨"o1", "1001", "Ann", "555", "10", "Shirt x1", "CONFIRMED", "",
   "2024-06-01T00:00:00Z", "2024-05-01T00:00:00Z"⟩

/-- Claim C3 counterexample: supplying the empty string as the confirmed-at
override does not write it; the guard tests JavaScript truthiness, so the
empty-string override is ignored and the stored confirmed_at survives,
contrary to the claim that every supplied value is written. -/
theorem updateOrderStatus_emptyOverride_cex :
    (updateOrderStatus [cexRow3] "o1" "CONFIRMED" (some "") "2025-01-01T00:00:00Z").2.map
      Row.confirmed_at = ["2024-06-01T00:00:00Z"] ∧
    (updateOrderStatus [cexRow3] "o1" "CONFIRMED" (some "") "2025-01-01T00:00:00Z").2.map
      Row.confirmed_at ≠ [""] := by decide

/-- Claim C3 (amended): a confirmed-at override supplied with a non-empty
value is written to confirmed_at regardless of the current confirmed_at and
of the new status, taking precedence over the automatic set-on-first-CONFIRMED
rule; an override supplied as the empty string is falsy and ignored, the call
behaving exactly as if no override had been supplied. -/
theorem updateOrderStatus_override_precedence (pre post : List Row) (r : Row)
    (oid status v now : String)
    (hpre : ∀ w ∈ pre, w.order_id ≠ oid) (hr : r.order_id = oid) :
    (v ≠ "" → updateOrderStatus (pre ++ r :: post) oid status (some v) now =
      (true, pre ++ { r with status := status, confirmed_at := v } :: post)) ∧
    updateOrderStatus (pre ++ r :: post) oid status (some "") now =
      updateOrderStatus (pre ++ r :: post) oid status none now := by
  constructor
  · intro hv
    rw [updateOrderStatus_found pre r post oid status (some v) now hpre hr,
      applyStatusUpdate_some_override r status v now hv]
  · rw [updateOrderStatus_found pre r post oid status (some "") now hpre hr,
      updateOrderStatus_found pre r post oid status none now hpre hr,
      applyStatusUpdate_empty_override]

/-- Witness for claim C3 (amended): a non-empty override overwrites an
already-set confirmed_at even when the new status is not CONFIRMED. -/
theorem updateOrderStatus_override_precedence_witness :
    updateOrderStatus [cexRow3] "o1" "CANCELLED" (some "2025-03-03T00:00:00Z")
      "2025-01-01T00:00:00Z" =
      (true, [{ cexRow3 with status := "CANCELLED", confirmed_at := "2025-03-03T00:00:00Z" }]) := by
  have h := (updateOrderStatus_override_precedence [] [] cexRow3 "o1" "CANCELLED"
    "2025-03-03T00:00:00Z" "2025-01-01T00:00:00Z" (by decide) (by decide)).1 (by decide)
  simpa using h

/-- Data row used to instantiate the find-by-id claims. -/
def dataRow4 : Row :=
  ⟨"o7", "1007", "Bo", "777", "5", "Hat x1", "PENDING_CONFIRMATION", "", "",
   "2024-04-01T00:00:00Z"⟩

/-- Claim C4 counterexample: with the header present, querying the literal
header text order_id returns row 1, the header row, rather than the
not-found sentinel: the scan reads the whole column A and starts at the
header, so the claim that the header row can never match is false. -/
theorem findRowByOrderId_header_cex :
    findRowByOrderId [headerRow, dataRow4] "order_id" = 1 ∧
    dataRow4.order_id ≠ "order_id" ∧ headerRow.order_id = "order_id" ∧ (1 : Int) ≠ -1 := by
  decide

/-- Claim C4 (amended): findRowByOrderId reads the full identifier column and
scans linearly from the header row (sheet row 1) onward, header included: it
returns the 1-based sheet row number of the first row whose identifier cell
equals the input exactly, and the sentinel -1 when no row at all matches; in
particular querying the header text order_id with the header present returns
row 1. -/
theorem findRowByOrderId_spec (store : List Row) (oid : String) :
    (findRowByOrderId store oid = -1 ↔ ∀ r ∈ store, r.order_id ≠ oid) ∧
    (∀ (pre : List Row) (r : Row) (post : List Row), store = pre ++ r :: post →
      (∀ w ∈ pre, w.order_id ≠ oid) → r.order_id = oid →
      findRowByOrderId store oid = (pre.length : Int) + 1) ∧
    (∀ rest : List Row, findRowByOrderId (headerRow :: rest) "order_id" = 1) := by
  refine ⟨findRowByOrderId_neg_one_iff store oid, ?_, ?_⟩
  · intro pre r post hs hpre hrid
    subst hs
    exact findRowByOrderId_append oid pre r post hpre hrid
  · intro rest
    have h := findRowByOrderId_append "order_id" [] headerRow rest (by simp) (by decide)
    simpa using h

/-- Witness for claim C4 (amended): the first data row after the header is
reported as sheet row 2. -/
theorem findRowByOrderId_spec_witness :
    findRowByOrderId [headerRow, dataRow4] "o7" = 2 := by
  have h := (findRowByOrderId_spec [headerRow, dataRow4] "o7").2.1 [headerRow] dataRow4 []
    (by decide) (by decide) (by decide)
  simpa using h

/-- Claim C5: addOrder renders each item as its title, an optional " (size)"
pulled from the first item option named Size, and " x" followed by the
quantity; the items are joined with ", " into the items_summary cell, and the
appended row carries status PENDING_CONFIRMATION, created_at set to the
current time, and empty last_customer_message and confirmed_at cells. -/
theorem addOrderRow_spec (order : UpstreamOrder) (now : String) :
    (∀ l, order.items = some l →
      (addOrderRow order now)[5]? =
        some (Cell.str (String.intercalate ", " (l.map itemSummary)))) ∧
    (∀ (item : OrderItem) (opts : List ItemOption) (o : ItemOption),
      item.options = some opts →
      (opts.find? fun oo : ItemOption => oo.name = "Size") = some o →
      itemSummary item =
        item.title ++ (" (" ++ o.value ++ ")") ++ " x" ++ toString item.quantity) ∧
    (∀ (item : OrderItem) (opts : List ItemOption), item.options = some opts →
      (opts.find? fun oo : ItemOption => oo.name = "Size") = none →
      itemSummary item = item.title ++ " x" ++ toString item.quantity) ∧
    (∀ item : OrderItem, item.options = none →
      itemSummary item = item.title ++ " x" ++ toString item.quantity) ∧
    (addOrderRow order now)[6]? = some (Cell.str "PENDING_CONFIRMATION") ∧
    (addOrderRow order now)[9]? = some (Cell.str now) ∧
    (addOrderRow order now)[7]? = some (Cell.str "") ∧
    (addOrderRow order now)[8]? = some (Cell.str "") := by
  refine ⟨?_, ?_, ?_, ?_, ?_, ?_, ?_, ?_⟩
  · intro l h
    simp [addOrderRow, itemsSummary, h]
  · intro item opts o hopts hfind
    simp [itemSummary, hopts, hfind]
  · intro item opts hopts hfind
    simp [itemSummary, hopts, hfind]
  · intro item hopts
    simp [itemSummary, hopts]
  · simp [addOrderRow]
  · simp [addOrderRow]
  · simp [addOrderRow]
  · simp [addOrderRow]

/-- Order taken from the end-to-end example of the design document: one item
titled Shirt with a Size option of value M and quantity 2. -/
def wOrder5 : UpstreamOrder :=
  ⟨"o1", "1001", some "Ann", some "555", none, some "30",
   some [⟨"Shirt", 2, some [⟨"Size", "M"⟩]⟩]⟩

/-- Witness for claim C5: the example order renders items_summary
"Shirt (M) x2". -/
theorem addOrderRow_spec_witness :
    (addOrderRow wOrder5 "2024-01-01T00:00:00Z")[5]? = some (Cell.str "Shirt (M) x2") := by
  have h := (addOrderRow_spec wOrder5 "2024-01-01T00:00:00Z").1
    [⟨"Shirt", 2, some [⟨"Size", "M"⟩]⟩] rfl
  rw [h]
  decide

/-- Upstream order with every optional part missing. -/
def cexOrder6 : UpstreamOrder := ⟨"o9", "1009", none, none, none, none, none⟩

/-- Claim C6 counterexample: with totalPrice absent the total_amount cell is
the number 0, not the empty string: the fallback in amount || 0 is the
numeric literal 0, so not every missing field serializes to the empty
string. -/
theorem addOrderRow_totalAmount_cex :
    (addOrderRow cexOrder6 "2024-01-01T00:00:00Z")[4]? = some (Cell.num 0) ∧
    (addOrderRow cexOrder6 "2024-01-01T00:00:00Z")[4]? ≠ some (Cell.str "") := by
  decide

/-- Claim C6 (amended): a missing customer name, phone, or items collection is
rendered as the empty-string cell, but a missing total amount is rendered as
the number 0 rather than the empty string. -/
theorem addOrderRow_missing_fields (order : UpstreamOrder) (now : String) :
    (order.customerName = none → (addOrderRow order now)[2]? = some (Cell.str "")) ∧
    (order.shippingPhone = none → order.customerPhone = none →
      (addOrderRow order now)[3]? = some (Cell.str "")) ∧
    (order.items = none → (addOrderRow order now)[5]? = some (Cell.str "")) ∧
    (order.totalAmount = none → (addOrderRow order now)[4]? = some (Cell.num 0)) := by
  refine ⟨?_, ?_, ?_, ?_⟩
  · intro h
    simp [addOrderRow, jsOr, h]
  · intro h1 h2
    simp [addOrderRow, jsOr, h1, h2]
  · intro h
    simp [addOrderRow, itemsSummary, h]
  · intro h
    simp [addOrderRow, totalAmountCell, h]

/-- Witness for claim C6 (amended): the all-missing order yields empty-string
cells for name, phone and items, and the number 0 for the total. -/
theorem addOrderRow_missing_fields_witness :
    (addOrderRow cexOrder6 "2024-01-01T00:00:00Z")[2]? = some (Cell.str "") ∧
    (addOrderRow cexOrder6 "2024-01-01T00:00:00Z")[3]? = some (Cell.str "") ∧
    (addOrderRow cexOrder6 "2024-01-01T00:00:00Z")[4]? = some (Cell.num 0) := by
  have h := addOrderRow_missing_fields cexOrder6 "2024-01-01T00:00:00Z"
  exact ⟨h.1 rfl, h.2.1 rfl rfl, h.2.2.2 rfl⟩

/-- Claim C7: when no row carries the queried order id, updateOrderStatus and
updateLastMessage signal failure and leave every stored record unchanged. -/
theorem notFound_noWrite (store : List Row) (oid status now msg : String)
    (ov : Option String) (h : ∀ r ∈ store, r.order_id ≠ oid) :
    updateOrderStatus store oid status ov now = (false, store) ∧
    updateLastMessage store oid msg = (false, store) := by
  have hf : findRowByOrderId store oid = -1 := (findRowByOrderId_neg_one_iff store oid).mpr h
  constructor
  · simp [updateOrderStatus, hf]
  · simp [updateLastMessage, hf]

/-- Witness for claim C7: an unknown id touches nothing and reports false. -/
theorem notFound_noWrite_witness :
    updateOrderStatus [headerRow, wRowA] "nope" "CONFIRMED" none "2024-02-01T00:00:00Z" =
      (false, [headerRow, wRowA]) ∧
    updateLastMessage [headerRow, wRowA] "nope" "hello" = (false, [headerRow, wRowA]) :=
  notFound_noWrite [headerRow, wRowA] "nope" "CONFIRMED" "2024-02-01T00:00:00Z" "hello" none
    (by decide)

/-- Claim C8: for a found record, updateLastMessage rewrites only the
last_customer_message cell of that row: every other field of the row keeps
its value and every other row of the store is untouched. -/
theorem updateLastMessage_frame (pre post : List Row) (r : Row) (oid msg : String)
    (hpre : ∀ w ∈ pre, w.order_id ≠ oid) (hr : r.order_id = oid) :
    updateLastMessage (pre ++ r :: post) oid msg =
      (true, pre ++ { r with last_customer_message := msg } :: post) ∧
    ({ r with last_customer_message := msg } : Row).last_customer_message = msg ∧
    ({ r with last_customer_message := msg } : Row).order_id = r.order_id ∧
    ({ r with last_customer_message := msg } : Row).order_number = r.order_number ∧
    ({ r with last_customer_message := msg } : Row).customer_name = r.customer_name ∧
    ({ r with last_customer_message := msg } : Row).phone = r.phone ∧
    ({ r with last_customer_message := msg } : Row).total_amount = r.total_amount ∧
    ({ r with last_customer_message := msg } : Row).items_summary = r.items_summary ∧
    ({ r with last_customer_message := msg } : Row).status = r.status ∧
    ({ r with last_customer_message := msg } : Row).confirmed_at = r.confirmed_at ∧
    ({ r with last_customer_message := msg } : Row).created_at = r.created_at :=
  ⟨updateLastMessage_found pre r post oid msg hpre hr,
   rfl, rfl, rfl, rfl, rfl, rfl, rfl, rfl, rfl, rfl⟩

/-- Witness for claim C8: rewriting the message of the row after the header
leaves the header and the other nine fields as they were. -/
theorem updateLastMessage_frame_witness :
    updateLastMessage [headerRow, wRowA] "o1" "see you" =
      (true, [headerRow, { wRowA with last_customer_message := "see you" }]) := by
  have h := (updateLastMessage_frame [headerRow] [] wRowA "o1" "see you"
    (by decide) (by decide)).1
  simpa using h

/-- Claim C9: every public operation returns a success/failure or
found/not-found signal instead of raising: with the service uninitialized each
call no-ops and reports false or null, and a store fault raised during the
call is caught at the operation boundary and converted to the same failure
signal with the store untouched. -/
theorem publicOps_failure_signals (env : Env) (store : List Row) (order : UpstreamOrder)
    (oid status msg phone now : String) (ov : Option String) :
    (env.inited = false →
      addOrderOp env order now = (false, none) ∧
      updateOrderStatusOp env store oid status ov now = (false, store) ∧
      updateLastMessageOp env store oid msg = (false, store) ∧
      getPendingOrderByPhoneOp env store phone = none) ∧
    (env.readFails = true →
      updateOrderStatusOp env store oid status ov now = (false, store) ∧
      updateLastMessageOp env store oid msg = (false, store) ∧
      getPendingOrderByPhoneOp env store phone = none) ∧
    (env.appendFails = true → addOrderOp env order now = (false, none)) ∧
    (env.writeFails = true →
      updateOrderStatusOp env store oid status ov now = (false, store) ∧
      updateLastMessageOp env store oid msg = (false, store)) := by
  refine ⟨?_, ?_, ?_, ?_⟩
  · intro h
    refine ⟨?_, ?_, ?_, ?_⟩ <;>
      simp [addOrderOp, updateOrderStatusOp, updateLastMessageOp,
        getPendingOrderByPhoneOp, h]
  · intro h
    refine ⟨?_, ?_, ?_⟩ <;>
      simp [updateOrderStatusOp, updateLastMessageOp, getPendingOrderByPhoneOp,
        findRowOp, h]
  · intro h
    simp [addOrderOp, h]
  · intro h
    refine ⟨?_, ?_⟩ <;>
      simp [updateOrderStatusOp, updateLastMessageOp, h]

/-- Witness for claim C9: with initialization failed and every store call
faulted, each public operation reports failure and changes nothing. -/
theorem publicOps_failure_signals_witness :
    addOrderOp ⟨false, true, true, true⟩ cexOrder6 "2024-01-01T00:00:00Z" = (false, none) ∧
    updateOrderStatusOp ⟨false, true, true, true⟩ [wRowA] "o1" "CONFIRMED" none
      "2024-02-01T00:00:00Z" = (false, [wRowA]) ∧
    updateLastMessageOp ⟨false, true, true, true⟩ [wRowA] "o1" "hi" = (false, [wRowA]) ∧
    getPendingOrderByPhoneOp ⟨false, true, true, true⟩ [wRowA] "555" = none :=
  (publicOps_failure_signals ⟨false, true, true, true⟩ [wRowA] cexOrder6 "o1" "CONFIRMED"
    "hi" "555" "2024-02-01T00:00:00Z" none).1 rfl

/-- Pending data row whose phone cell holds no digit characters. -/
def wRowNP : Row :=
  ⟨"o3", "1003", "Cy", "no-phone", "1", "Cap x1", "PENDING_CONFIRMATION", "", "",
   "2024-03-01T00:00:00Z"⟩

/-- Claim C10: an input phone with no digit characters normalizes to the empty
string, which every normalized stored phone contains, so every row matches and
the lookup degenerates to returning the most recent PENDING_CONFIRMATION
record of the whole data region regardless of the input; symmetrically a
stored row whose phone cell holds no digits matches every input phone. -/
theorem getPending_emptyPhone (rows : List Row) (p q : String) :
    (normalizePhone p = "" → ∀ r : Row, phoneMatches (normalizePhone p) r = true) ∧
    (∀ (c : String) (r : Row), normalizePhone r.phone = "" → phoneMatches c r = true) ∧
    (normalizePhone p = "" → normalizePhone q = "" →
      getPendingOrderByPhone rows p = getPendingOrderByPhone rows q) ∧
    (normalizePhone p = "" →
      (getPendingOrderByPhone rows p = none ↔
        ∀ w ∈ rows, w.status ≠ "PENDING_CONFIRMATION")) ∧
    (normalizePhone p = "" → ∀ r, getPendingOrderByPhone rows p = some r →
      r ∈ rows ∧ r.status = "PENDING_CONFIRMATION" ∧
      ∀ w ∈ rows, w.status = "PENDING_CONFIRMATION" →
        strLt r.created_at w.created_at = false) := by
  refine ⟨?_, ?_, ?_, ?_, ?_⟩
  · intro h r
    rw [h]
    exact phoneMatches_of_clean_empty r
  · exact phoneMatches_of_row_empty
  · intro hp hq
    unfold getPendingOrderByPhone
    rw [hp, hq]
  · intro hp
    rw [getPending_none_iff]
    constructor
    · intro hall w hw hst
      exact hall w hw ⟨by rw [hp]; exact phoneMatches_of_clean_empty w, hst⟩
    · intro hall w hw hq2
      exact hall w hw hq2.2
  · intro hp r hres
    obtain ⟨hmem, hq2, hmax⟩ := getPending_some_max rows p r hres
    exact ⟨hmem, hq2.2, fun w hw hst =>
      hmax w hw ⟨by rw [hp]; exact phoneMatches_of_clean_empty w, hst⟩⟩

/-- Witness for claim C10: the digit-free input matches a normal row, a
digit-free stored phone matches a normal input, and emptiness of the result is
equivalent to the absence of pending rows. -/
theorem getPending_emptyPhone_witness :
    phoneMatches (normalizePhone "call me") wRowA = true ∧
    phoneMatches (normalizePhone "5551234567") wRowNP = true ∧
    (getPendingOrderByPhone [wRowA] "call me" = none ↔
      ∀ w ∈ [wRowA], w.status ≠ "PENDING_CONFIRMATION") := by
  have h := getPending_emptyPhone [wRowA] "call me" "call me"
  exact ⟨h.1 rfl wRowA, h.2.1 (normalizePhone "5551234567") wRowNP rfl, h.2.2.2.1 rfl⟩

end GlamSheets
